import Mathlib

/-!
Verification of the UIT_Hardware_Specialist data-preparation scripts
(`utils/merge_datasets.py` and `utils/check_missing.py`) against their
specification.

Modelling conventions:
* Python strings are modelled as `List Char` (`Str`).
* A record produced by `csv.DictReader` is modelled as a mapping from column
  name to cell value; a field that is absent from the record (the column does
  not occur in the file) is `Option.none`.  All cells of well-formed rows are
  strings.  For the missing-value analyzer, whose code explicitly tests
  `value is None`, cells are modelled as `Option Str` with `none` standing for
  Python's `None` (the `restval` a `DictReader` inserts for short rows).
* File I/O is modelled by passing the parsed file contents (or `none` for a
  missing file) to the entry-point functions; printed messages and written
  files are modelled by explicit outcome datatypes.
* Numeric formatting of percentages (`f"{...:.2f}"`) is presentation only;
  the model carries the exact rational value `count / total * 100`.
-/

/-- Python strings, modelled as lists of characters. -/
abbrev Str := List Char

/-- Conversion from Lean string literals to the model's string type. -/
def str (s : String) : Str := s.data

/-- `pre` is a prefix of `s` (Python `s.startswith(pre)` / substring search step). -/
def strStarts : Str → Str → Bool
  | _, [] => true
  | [], _ :: _ => false
  | c :: cs, d :: ds => c == d && strStarts cs ds

/-- Python's `needle in hay` for strings: contiguous-substring containment.
Note `strContains hay [] = true`, as in Python. -/
def strContains : Str → Str → Bool
  | [], needle => strStarts [] needle
  | hay@(_ :: t), needle => strStarts hay needle || strContains t needle

/-- Specification-level statement of substring containment. -/
def ContainsStr (hay needle : Str) : Prop :=
  ∃ pre post, hay = pre ++ needle ++ post

/-- ASCII-alphanumeric test: the character class `[a-zA-Z0-9]` of the
normalizer's regular expression. -/
def isAsciiAlnum (c : Char) : Bool :=
  (97 ≤ c.toNat && c.toNat ≤ 122) || (65 ≤ c.toNat && c.toNat ≤ 90) ||
    (48 ≤ c.toNat && c.toNat ≤ 57)

/-- A lowercase ASCII letter or an ASCII digit (the normalizer's output class). -/
def isLowerAlnum (c : Char) : Bool :=
  (97 ≤ c.toNat && c.toNat ≤ 122) || (48 ≤ c.toNat && c.toNat ≤ 57)

/-- Python's `s.lower()`, restricted to the basic-latin range handled by
`Char.toLower` (sufficient for the ASCII material the claims concern). -/
def pyLower (s : Str) : Str := s.map Char.toLower

/-- The Normalizer (`normalize_name` in `merge_datasets.py`):
`if not name: return ""` then `re.sub(r'[^a-zA-Z0-9]', '', name.lower())`.
`none` models an absent value (Python `None`). -/
def normalize_name : Option Str → Str
  | none => []
  | some s => if s.isEmpty then [] else (pyLower s).filter isAsciiAlnum

/-- ASCII whitespace stripped by Python's `str.strip()` with no argument:
space, tab, newline, carriage return, vertical tab, form feed. -/
def isPySpace (c : Char) : Bool :=
  c == ' ' || c == '\t' || c == '\n' || c == '\r' || c.toNat == 11 || c.toNat == 12

/-- Python's `s.strip()` (ASCII whitespace). -/
def pyStrip (s : Str) : Str :=
  ((s.dropWhile isPySpace).reverse.dropWhile isPySpace).reverse

/-- Value of a digit run already begun, allowing the single underscores that
Python's `int()` accepts between digits. -/
def digitsRest (acc : Nat) : Str → Option Nat
  | [] => some acc
  | '_' :: c :: cs =>
    if c.isDigit then digitsRest (acc * 10 + (c.toNat - 48)) cs else none
  | ['_'] => none
  | c :: cs =>
    if c.isDigit then digitsRest (acc * 10 + (c.toNat - 48)) cs else none

/-- Parse a non-empty digit run (Python `digitpart`: a digit followed by
digits optionally separated by single underscores). -/
def pyDigits : Str → Option Nat
  | [] => none
  | c :: cs => if c.isDigit then digitsRest (c.toNat - 48) cs else none

/-- Python's built-in `int(s)` on a string: strip whitespace, optional sign,
base-10 digits; `none` models the `ValueError` raised otherwise. -/
def pythonInt (s : Str) : Option Int :=
  match pyStrip s with
  | '+' :: rest => (pyDigits rest).map Int.ofNat
  | '-' :: rest => (pyDigits rest).map fun n => -(n : Int)
  | rest => (pyDigits rest).map Int.ofNat

/-- A catalog record (one `csv.DictReader` row of `dataset/laptop.csv`,
restricted to the columns the pipeline touches, plus the three derived
columns).  `none` models a column absent from the record. -/
structure Row where
  model_name : Option Str
  ram : Option Str            -- column `ram(GB)`
  graphics : Option Str
  processor_name : Option Str
  screen_size : Option Str    -- column `screen_size(inches)`
  resolution : Option Str     -- column `resolution (pixels)`
  Major : Option Str
  Activities : Option Str
  ProgramList : Option Str
deriving Repr, DecidableEq

/-- A projected survey record as built in `main` of `merge_datasets.py`. -/
structure SurveyRow where
  model_normalized : Str
  Major : Str
  Activities : Str
  ProgramList : Str
deriving Repr, DecidableEq

/-- The case-sensitive placeholder list `['Missing', 'NULL', 'null', 'None', '']`
used by the hardware imputer. -/
def hwSentinels : List Str :=
  [str "Missing", str "NULL", str "null", str "None", str ""]

/-- The imputer's trigger `not row.get(col) or row[col] in [...]`:
absent, empty (falsy) or a listed sentinel. -/
def needsFill : Option Str → Bool
  | none => true
  | some s => s.isEmpty || hwSentinels.contains s

/-- Graphics imputation (lines 92-99 of `merge_datasets.py`). -/
def impute_graphics (row : Row) : Row :=
  if needsFill row.graphics then
    let proc := pyLower (row.processor_name.getD [])
    if strContains proc (str "intel") then
      { row with graphics := some (str "Intel Integrated Graphics") }
    else if strContains proc (str "amd") || strContains proc (str "ryzen") then
      { row with graphics := some (str "AMD Radeon Graphics") }
    else
      { row with graphics := some (str "Integrated Graphics") }
  else row

/-- Screen-size imputation (lines 101-102). -/
def impute_screen (row : Row) : Row :=
  if needsFill row.screen_size then { row with screen_size := some (str "15.6") }
  else row

/-- Resolution imputation (lines 104-105). -/
def impute_resolution (row : Row) : Row :=
  if needsFill row.resolution then
    { row with resolution := some (str "1920 x 1080") }
  else row

/-- The full hardware imputer, in source order. -/
def impute (row : Row) : Row :=
  impute_resolution (impute_screen (impute_graphics row))

/-- `ram = int(row.get('ram(GB)', 0))` with `except ValueError: ram = 0`:
an absent column yields `int(0) = 0`; an unparseable string yields 0. -/
def ramOf (row : Row) : Int :=
  match row.ram with
  | none => 0
  | some s => match pythonInt s with
    | some n => n
    | none => 0

/-- `gpu = row.get('graphics', '').lower()`. -/
def gpuOf (row : Row) : Str := pyLower (row.graphics.getD [])

/-- High-spec test of `get_inferred_data`. -/
def is_high_spec (row : Row) : Bool :=
  decide (16 ≤ ramOf row) || strContains (gpuOf row) (str "rtx") ||
    strContains (gpuOf row) (str "gtx") || strContains (gpuOf row) (str "radeon rx")

/-- Mid-spec test of `get_inferred_data`. -/
def is_mid_spec (row : Row) : Bool := decide (8 ≤ ramOf row)

/-- Capability tier (spec section 4.3). -/
inductive Tier where
  | High
  | Mid
  | Low
deriving Repr, DecidableEq

/-- The tier selected by `get_inferred_data`'s `if / elif / else` chain. -/
def tier (row : Row) : Tier :=
  if is_high_spec row then .High else if is_mid_spec row then .Mid else .Low

/-- The inferred descriptive bundle returned by `get_inferred_data`. -/
structure Inferred where
  Major : Str
  Activities : Str
  ProgramList : Str
deriving Repr, DecidableEq

/-- High-tier bundle (lines 30-32). -/
def highBundle : Inferred :=
  ⟨str "Knowledge Engineering",
   str "Programming/Coding (e.g., VS Code, IntelliJ, Python), Running Virtual Machines (e.g., VMware, VirtualBox), CAD/3D Modeling (e.g., AutoCAD, Blender), Graphic Design/Video Editing",
   str "TensorFlow, PyTorch, Unity, Unreal Engine"⟩

/-- Mid-tier bundle (lines 34-36). -/
def midBundle : Inferred :=
  ⟨str "Software Engineering",
   str "Programming/Coding (e.g., VS Code, IntelliJ, Python), Web Browsing and Research, Office/Documentation (e.g., Word, Excel, Google Docs), Database Management",
   str "VS Code, Git, Postman, XAMPP"⟩

/-- Low-tier bundle (lines 38-40). -/
def lowBundle : Inferred :=
  ⟨str "No Major Yet",
   str "Web Browsing and Research, Office/Documentation (e.g., Word, Excel, Google Docs)",
   str "Chrome, Word, Excel"⟩

/-- `get_inferred_data` of `merge_datasets.py`. -/
def get_inferred_data (row : Row) : Inferred :=
  if is_high_spec row then highBundle
  else if is_mid_spec row then midBundle
  else lowBundle

/-- The bundle attached to each tier. -/
def bundleOf : Tier → Inferred
  | .High => highBundle
  | .Mid => midBundle
  | .Low => lowBundle

/-- The matcher's per-record test (line 111):
`survey_row['model_normalized'] and (survey_row['model_normalized'] in
laptop_model_norm or laptop_model_norm in survey_row['model_normalized'])`. -/
def matchPred (laptop_model_norm : Str) (s : SurveyRow) : Bool :=
  !s.model_normalized.isEmpty &&
    (strContains laptop_model_norm s.model_normalized ||
      strContains s.model_normalized laptop_model_norm)

/-- The matcher loop (lines 108-113): first survey record, in loaded order,
passing `matchPred`. -/
def find_match (laptop_model_norm : Str) (survey : List SurveyRow) : Option SurveyRow :=
  survey.find? (matchPred laptop_model_norm)

/-- The case-insensitive placeholder list `['none', 'nan', '']` used for the
matched `ProgramList` (line 121). -/
def plSentinels : List Str := [str "none", str "nan", str ""]

/-- Processing of one catalog record inside `main`'s merge loop
(lines 88-130): normalize the model name, impute hardware fields, match
against the survey, then fill the three descriptive fields. -/
def process_row (survey : List SurveyRow) (row0 : Row) : Row :=
  let laptop_model_norm := normalize_name row0.model_name
  let row := impute row0
  match find_match laptop_model_norm survey with
  | some m =>
    let row1 : Row :=
      { row with Major := some m.Major, Activities := some m.Activities,
                 ProgramList := some m.ProgramList }
    if m.ProgramList.isEmpty || plSentinels.contains (pyLower m.ProgramList) then
      { row1 with ProgramList := some (get_inferred_data row1).ProgramList }
    else row1
  | none =>
    let inferred := get_inferred_data row
    { row with Major := some inferred.Major, Activities := some inferred.Activities,
               ProgramList := some inferred.ProgramList }

/-- A record with every column absent, used to build concrete test records. -/
def emptyRow : Row := ⟨none, none, none, none, none, none, none, none, none⟩

/-- A raw `csv.DictReader` row: column names paired with string cells, in
header order.  Used for the survey file and the catalog file before
projection. -/
abbrev RawRow := List (Str × Str)

/-- The keys of a raw row, in insertion (header) order. -/
def rawKeys (row : RawRow) : List Str := row.map Prod.fst

/-- `[k for k in row.keys() if kw in k.lower()][0]` (lines 70-72), as an
`Option`: `none` models the `IndexError` when no key matches. -/
def findCol (kw : Str) (row : RawRow) : Option Str :=
  (rawKeys row).find? fun k => strContains (pyLower k) kw

/-- The program-list column lookup (line 73): both `'specialized software'`
and `'list'` must occur in the lowered key. -/
def findColPL (row : RawRow) : Option Str :=
  (rawKeys row).find? fun k =>
    strContains (pyLower k) (str "specialized software") &&
      strContains (pyLower k) (str "list")

/-- `row[k]` for a key known to be present (keys found by `findCol` always
are); defaults to the empty string otherwise. -/
def lookupRaw (row : RawRow) (k : Str) : Str :=
  match row.find? fun kv => kv.1 == k with
  | some kv => kv.2
  | none => []

/-- `row.get(k)` as used when projecting a catalog row: `none` when the
column is absent. -/
def lookupOpt (row : RawRow) (k : Str) : Option Str :=
  (row.find? fun kv => kv.1 == k).map Prod.snd

/-- Building one entry of `survey_data` (lines 70-80); `none` models the
uncaught `IndexError` on a missing keyword column. -/
def parse_survey_row (row : RawRow) : Option SurveyRow := do
  let mk ← findCol (str "laptop model") row
  let maj ← findCol (str "major") row
  let act ← findCol (str "activities") row
  let pk ← findColPL row
  pure ⟨normalize_name (some (lookupRaw row mk)), lookupRaw row maj,
        lookupRaw row act, lookupRaw row pk⟩

/-- The survey-reading loop (lines 62-80): one projected record appended per
raw row, aborting on the first failed column lookup. -/
def parse_survey : List RawRow → Option (List SurveyRow)
  | [] => some []
  | row :: rest => do
    let s ← parse_survey_row row
    let others ← parse_survey rest
    pure (s :: others)

/-- Projection of a raw catalog row onto the columns the pipeline touches. -/
def toRow (r : RawRow) : Row :=
  { model_name := lookupOpt r (str "model_name"),
    ram := lookupOpt r (str "ram(GB)"),
    graphics := lookupOpt r (str "graphics"),
    processor_name := lookupOpt r (str "processor_name"),
    screen_size := lookupOpt r (str "screen_size(inches)"),
    resolution := lookupOpt r (str "resolution (pixels)"),
    Major := lookupOpt r (str "Major"),
    Activities := lookupOpt r (str "Activities"),
    ProgramList := lookupOpt r (str "ProgramList") }

/-- Observable outcome of one run of the merge tool's `main`. -/
inductive MergeOutcome where
  | missingFile (path : Str)   -- message printed, graceful return, no output file
  | crashed (msg : Str)        -- uncaught exception, no output file
  | written (rows : List Row)  -- output file written in full
deriving Repr, DecidableEq

/-- Fixed catalog path literal (line 49). -/
def laptop_path : Str := str "dataset/laptop.csv"

/-- Fixed survey path literal (line 50). -/
def survey_path : Str :=
  str "dataset/UIT Student Laptop Usage Survey (Responses) - Form responses 1.csv"

/-- `main` of `merge_datasets.py`.  A file argument is `none` when the file
does not exist (the `os.path.exists` guards), otherwise the loaded rows. -/
def merge_main (laptopFile surveyFile : Option (List RawRow)) : MergeOutcome :=
  match laptopFile with
  | none => .missingFile laptop_path
  | some lrows =>
    match surveyFile with
    | none => .missingFile survey_path
    | some srows =>
      match parse_survey srows with
      | none => .crashed (str "IndexError: list index out of range")
      | some sdata => .written (lrows.map fun r => process_row sdata (toRow r))

/-- Content of the output file produced by a run: `none` when no file is
written. -/
def writtenOutput : MergeOutcome → Option (List Row)
  | .written rows => some rows
  | _ => none

/-- A cell as the analyzer sees it: `none` is Python's `None`. -/
abbrev Cell := Option Str

/-- An analyzer row: column names paired with cells, in header order. -/
abbrev ARow := List (Str × Cell)

/-- `missing_keywords = ['nan', 'none', 'null', 'missing', '']` (line 20 of
`check_missing.py`). -/
def missing_keywords : List Str :=
  [str "nan", str "none", str "null", str "missing", str ""]

/-- The analyzer's per-cell test (lines 24-27): `value is None`, or
`str(value).strip().lower() in missing_keywords`. -/
def isMissingCell : Cell → Bool
  | none => true
  | some s => missing_keywords.contains (pyLower (pyStrip s))

/-- The counting loop (lines 22-27) for one column: each item of each row
with this key and a missing value increments the count. -/
def countMissingIn (data : List ARow) (h : Str) : Nat :=
  (data.map fun row => (row.filter fun kv => kv.1 == h && isMissingCell kv.2).length).sum

/-- The analyzer's printed report, as structured data.  Percentages are the
exact rationals `count / total * 100`; the `:.2f` rendering is presentation.
`none` in an entry models the literal `"{key}: 0"` line. -/
inductive Report where
  | noData
  | table (totalRows : Nat) (entries : List (Str × Nat × Option ℚ))
deriving Repr, DecidableEq

/-- `analyze_missing`'s computation on loaded data (lines 10-34 of
`check_missing.py`). -/
def analyze_missing (data : List ARow) : Report :=
  match data with
  | [] => .noData
  | first :: _ =>
    let total := data.length
    let headers := first.map Prod.fst
    .table total (headers.map fun h =>
      let c := countMissingIn data h
      (h, c, if 0 < c then some ((c : ℚ) / (total : ℚ) * 100) else none))

/-- Result of the analyzer's attempt to open and parse its input file. -/
inductive LoadResult (α : Type) where
  | ok (val : α)
  | fileNotFound
  | otherError (msg : Str)
deriving Repr, DecidableEq

/-- What a run of `analyze_missing` does observably. -/
inductive AnalyzerOutcome where
  | printedReport (r : Report)   -- report printed, normal return
  | printedError (msg : Str)     -- error message printed, normal return
  | raised (msg : Str)           -- exception escapes to the caller
deriving Repr, DecidableEq

/-- `analyze_missing` including its `try/except` wrapper (lines 3-39):
every load failure is converted into a printed message. -/
def check_missing_main (load : LoadResult (List ARow)) : AnalyzerOutcome :=
  match load with
  | .ok data => .printedReport (analyze_missing data)
  | .fileNotFound => .printedError (str "File not found")
  | .otherError e => .printedError e

/-- The analyzer's cell test, in specification wording. -/
def CellMissingSpec (c : Cell) : Prop :=
  c = none ∨ ∃ s, c = some s ∧
    (pyLower (pyStrip s) = str "nan" ∨ pyLower (pyStrip s) = str "none" ∨
     pyLower (pyStrip s) = str "null" ∨ pyLower (pyStrip s) = str "missing" ∨
     pyLower (pyStrip s) = str "")

/-- The High-tier condition, in specification wording: RAM at least 16 GB or
the case-folded GPU text contains one of the high-end GPU keywords. -/
def HighSpecP (row : Row) : Prop :=
  16 ≤ ramOf row ∨ ContainsStr (gpuOf row) (str "rtx") ∨
    ContainsStr (gpuOf row) (str "gtx") ∨ ContainsStr (gpuOf row) (str "radeon rx")

/-- A record whose RAM cell does not parse as an integer. -/
def ramInvalidRow : Row := { emptyRow with ram := some (str "invalid") }

/-- `proc = row.get('processor_name', '').lower()` (line 93). -/
def procOf (row : Row) : Str := pyLower (row.processor_name.getD [])

/-- A record with sentinel graphics and an Intel processor. -/
def intelRow : Row :=
  { emptyRow with graphics := some (str "Missing"),
                  processor_name := some (str "Intel Core i5") }

/-- The specification's matcher example as a survey record. -/
def mbp : SurveyRow :=
  ⟨str "macbookpro", str "Software Engineering", str "Coding", str "VS Code"⟩

/-- A survey record with a non-empty normalized key. -/
def dellRow : SurveyRow := ⟨str "dellxps13", str "SE", str "Stuff", str "Git"⟩

/-- A present, non-empty field value. -/
def nonEmptyField (v : Option Str) : Prop := ∃ s, v = some s ∧ s ≠ []

/-- A survey whose matching record carries empty Major and Activities cells. -/
def c1Survey : List SurveyRow := [⟨str "macbookpro", [], [], str "Zoom"⟩]

/-- A catalog record matching `c1Survey`'s only record. -/
def c1Row : Row := { emptyRow with model_name := some (str "MacBook Pro 14") }

/-- A survey whose matching record carries the placeholder program list. -/
def c6Survey : List SurveyRow := [⟨str "thinkpad", str "CS", str "Stuff", str "none"⟩]

/-- A catalog record matching `c6Survey`'s only record. -/
def c6Row : Row := { emptyRow with model_name := some (str "ThinkPad X1") }

/-- A survey row with no recognizable keyword column. -/
def badSurveyRow : RawRow := [(str "Timestamp", str "2024")]

/-- Keys of an analyzer row, in header order. -/
def aKeys (row : ARow) : List Str := row.map Prod.fst

/-- The cell of an analyzer row at a column (the dict lookup `row[key]`);
`none` both for a `None` cell and for a key that is absent, which cannot
happen for the keys the analyzer iterates. -/
def lookupCellA (row : ARow) (k : Str) : Cell :=
  match row.find? fun kv => kv.1 == k with
  | some kv => kv.2
  | none => none

/-- An analyzer row with one empty graphics cell. -/
def c7Row1 : ARow := [(str "graphics", some (str ""))]

/-- An analyzer row with a substantive graphics cell. -/
def c7Row2 : ARow := [(str "graphics", some (str "NVIDIA"))]

theorem strStarts_iff (s pre : Str) :
    strStarts s pre = true ↔ ∃ rest, s = pre ++ rest := by
  induction pre generalizing s with
  | nil => simp [strStarts]
  | cons d ds ih =>
    cases s with
    | nil => simp [strStarts]
    | cons c cs =>
      simp only [strStarts, Bool.and_eq_true, beq_iff_eq, ih, List.cons_append,
        List.cons.injEq]
      constructor
      · rintro ⟨rfl, rest, rfl⟩
        exact ⟨rest, rfl, rfl⟩
      · rintro ⟨rest, rfl, rfl⟩
        exact ⟨rfl, rest, rfl⟩

theorem strContains_iff (hay needle : Str) :
    strContains hay needle = true ↔ ContainsStr hay needle := by
  induction hay with
  | nil =>
    simp only [strContains, strStarts_iff, ContainsStr]
    constructor
    · rintro ⟨rest, h⟩
      exact ⟨[], rest, by simpa using h⟩
    · rintro ⟨pre, post, h⟩
      refine ⟨post, ?_⟩
      rcases List.append_eq_nil.mp (List.append_eq_nil.mp h.symm).1 with ⟨h1, h2⟩
      simp [h2, (List.append_eq_nil.mp h.symm).2]
  | cons c t ih =>
    simp only [strContains, Bool.or_eq_true, strStarts_iff, ih, ContainsStr]
    constructor
    · rintro (⟨rest, h⟩ | ⟨pre, post, h⟩)
      · exact ⟨[], rest, by simpa using h⟩
      · exact ⟨c :: pre, post, by simp [h]⟩
    · rintro ⟨pre, post, h⟩
      cases pre with
      | nil => exact Or.inl ⟨post, by simpa using h⟩
      | cons p ps =>
        right
        simp only [List.cons_append, List.cons.injEq] at h
        exact ⟨ps, post, h.2⟩

theorem strContains_nil_right (hay : Str) : strContains hay [] = true := by
  cases hay <;> simp [strContains, strStarts]

theorem char_toNat_ofNat_valid (n : Nat) (h : n.isValidChar) :
    (Char.ofNat n).toNat = n := by
  rw [Char.ofNat, dif_pos h]
  rfl

theorem toLower_toNat_of_upper (c : Char) (h : 65 ≤ c.toNat ∧ c.toNat ≤ 90) :
    (Char.toLower c).toNat = c.toNat + 32 := by
  unfold Char.toLower
  rw [if_pos (by exact ⟨h.1, h.2⟩)]
  exact char_toNat_ofNat_valid _ (Or.inl (by omega))

theorem toLower_eq_self_of_not_upper (c : Char)
    (h : ¬(65 ≤ c.toNat ∧ c.toNat ≤ 90)) : Char.toLower c = c := by
  unfold Char.toLower
  rw [if_neg (by exact fun hc => h ⟨hc.1, hc.2⟩)]

theorem toLower_not_upper (c : Char) :
    ¬(65 ≤ (Char.toLower c).toNat ∧ (Char.toLower c).toNat ≤ 90) := by
  by_cases h : 65 ≤ c.toNat ∧ c.toNat ≤ 90
  · rw [toLower_toNat_of_upper c h]
    omega
  · rw [toLower_eq_self_of_not_upper c h]
    exact h

example : normalize_name (some (str "A-b 1!")) = str "ab1" := by decide

example : normalize_name (some (str "MacBook Pro 14")) = str "macbookpro14" := by decide

example : normalize_name none = [] := by decide

example : pythonInt (str " 16 ") = some 16 := by decide

example : pythonInt (str "-8") = some (-8) := by decide

example : pythonInt (str "invalid") = none := by decide

example : pythonInt (str "") = none := by decide

example : pythonInt (str "12.5") = none := by decide

example : tier { emptyRow with ram := some (str "32"), graphics := some (str "RTX 3060") } = .High := by decide

example : tier { emptyRow with ram := some (str "8"), graphics := some (str "Intel UHD") } = .Mid := by decide

example : tier { emptyRow with ram := some (str "4"), graphics := some (str "Intel UHD") } = .Low := by decide

example : tier { emptyRow with ram := some (str "invalid") } = .Low := by decide

example : (impute_graphics { emptyRow with graphics := some (str ""), processor_name := some (str "Intel Core i5") }).graphics = some (str "Intel Integrated Graphics") := by decide

example : (impute_screen { emptyRow with screen_size := some (str "NULL") }).screen_size = some (str "15.6") := by decide

/-! ### Bridge lemmas between the executable model and specification wording -/

theorem contains_iff_mem (l : List Str) (s : Str) : l.contains s = true ↔ s ∈ l := by
  simp [List.contains]

/-- The matcher's boolean test, in specification wording. -/
theorem matchPred_iff (lm : Str) (s : SurveyRow) :
    matchPred lm s = true ↔
      s.model_normalized ≠ [] ∧
        (ContainsStr lm s.model_normalized ∨ ContainsStr s.model_normalized lm) := by
  simp [matchPred, strContains_iff, List.isEmpty_iff]

/-- The imputer trigger, in specification wording: absent, or one of the
case-sensitive sentinels (`""` being among them covers falsiness). -/
theorem needsFill_iff (v : Option Str) :
    needsFill v = true ↔ v = none ∨ ∃ s ∈ hwSentinels, v = some s := by
  cases v with
  | none => simp [needsFill]
  | some s =>
    simp only [needsFill, Bool.or_eq_true, contains_iff_mem, List.isEmpty_iff]
    constructor
    · rintro (rfl | h)
      · exact Or.inr ⟨[], by decide, rfl⟩
      · exact Or.inr ⟨s, h, rfl⟩
    · rintro (h | ⟨t, ht, hts⟩)
      · cases h
      · cases hts
        exact Or.inr ht

theorem isMissingCell_iff (c : Cell) : isMissingCell c = true ↔ CellMissingSpec c := by
  cases c with
  | none => simp [isMissingCell, CellMissingSpec]
  | some s =>
    simp only [isMissingCell, contains_iff_mem, CellMissingSpec, missing_keywords]
    constructor
    · intro h
      exact Or.inr ⟨s, rfl, by simpa using h⟩
    · rintro (h | ⟨t, hts, h⟩)
      · cases h
      · cases hts
        simpa using h

/-- Survey parsing fails exactly when some row's column lookup fails. -/
theorem parse_survey_eq_none (rows : List RawRow) :
    parse_survey rows = none ↔ ∃ row ∈ rows, parse_survey_row row = none := by
  induction rows with
  | nil => simp [parse_survey]
  | cons r rest ih =>
    cases hr : parse_survey_row r with
    | none => simp [parse_survey, hr]
    | some s =>
      cases hrest : parse_survey rest with
      | none => simp [parse_survey, hr, hrest, ih.mp hrest]
      | some others =>
        simp only [parse_survey, hr, hrest, Option.bind_some]
        simp only [hrest] at ih
        constructor
        · intro h
          cases h
        · rintro ⟨row, hmem, hnone⟩
          rcases List.mem_cons.mp hmem with rfl | hmem2
          · rw [hr] at hnone
            cases hnone
          · have hforall : ∀ x ∈ rest, ¬parse_survey_row x = none := by simpa using ih
            exact absurd hnone (hforall row hmem2)

/-- `get_inferred_data` reads only the `ram(GB)` and `graphics` columns. -/
theorem get_inferred_data_congr (r₁ r₂ : Row) (hram : r₁.ram = r₂.ram)
    (hg : r₁.graphics = r₂.graphics) :
    get_inferred_data r₁ = get_inferred_data r₂ := by
  simp [get_inferred_data, is_high_spec, is_mid_spec, ramOf, gpuOf, hram, hg]

/-- The inferred bundles all have non-empty descriptive fields. -/
theorem inferred_fields_nonempty (row : Row) :
    (get_inferred_data row).Major ≠ [] ∧ (get_inferred_data row).Activities ≠ [] ∧
      (get_inferred_data row).ProgramList ≠ [] := by
  unfold get_inferred_data
  split
  · decide
  · split <;> decide

/-- Every character of a normalized name passed the ASCII-alphanumeric filter
and is the lowering of some input character. -/
theorem mem_normalize_ascii (x : Option Str) (c : Char) (hc : c ∈ normalize_name x) :
    isAsciiAlnum c = true ∧ ∃ d, c = Char.toLower d := by
  cases x with
  | none => simp [normalize_name] at hc
  | some s =>
    simp only [normalize_name] at hc
    by_cases hs : s.isEmpty = true
    · simp [hs] at hc
    · rw [if_neg hs] at hc
      rcases List.mem_filter.mp hc with ⟨hmem, hpred⟩
      rcases List.mem_map.mp hmem with ⟨d, _, hd⟩
      exact ⟨hpred, d, hd.symm⟩

/-- Characters of a normalized name are lowercase ASCII letters or digits. -/
theorem normalize_chars_lower (x : Option Str) :
    ∀ c ∈ normalize_name x, isLowerAlnum c = true := by
  intro c hc
  rcases mem_normalize_ascii x c hc with ⟨halnum, d, rfl⟩
  have hup := toLower_not_upper d
  simp only [isAsciiAlnum, Bool.or_eq_true, Bool.and_eq_true, decide_eq_true_eq] at halnum
  simp only [isLowerAlnum, Bool.or_eq_true, Bool.and_eq_true, decide_eq_true_eq]
  omega

/-- Characters of a normalized name are fixed by lowering and kept by the
filter. -/
theorem normalize_char_fixed (x : Option Str) :
    ∀ c ∈ normalize_name x, Char.toLower c = c ∧ isAsciiAlnum c = true := by
  intro c hc
  have hlower := normalize_chars_lower x c hc
  have halnum := (mem_normalize_ascii x c hc).1
  refine ⟨?_, halnum⟩
  apply toLower_eq_self_of_not_upper
  simp only [isLowerAlnum, Bool.or_eq_true, Bool.and_eq_true, decide_eq_true_eq] at hlower
  omega

/-- C5: for every input string, `normalize_name` returns a string containing
only lowercase alphanumeric characters, in the original order (a subsequence
of the lowered input), with all other characters removed; empty or absent
input yields the empty string; and normalization is idempotent. -/
theorem C5_normalizer (x : Option Str) :
    (∀ c ∈ normalize_name x, isLowerAlnum c = true) ∧
    List.Sublist (normalize_name x) (pyLower (x.getD [])) ∧
    normalize_name none = [] ∧
    normalize_name (some []) = [] ∧
    normalize_name (some (normalize_name x)) = normalize_name x := by
  refine ⟨normalize_chars_lower x, ?_, rfl, rfl, ?_⟩
  · cases x with
    | none => simp [normalize_name]
    | some s =>
      simp only [normalize_name, Option.getD]
      by_cases hs : s.isEmpty = true
      · simp [hs]
      · rw [if_neg hs]
        exact List.filter_sublist _
  · cases hy : normalize_name x with
    | nil => rfl
    | cons c cs =>
      have hfix := normalize_char_fixed x
      rw [hy] at hfix
      show normalize_name (some (c :: cs)) = c :: cs
      simp only [normalize_name]
      rw [if_neg (by simp)]
      have hmap : pyLower (c :: cs) = c :: cs := by
        unfold pyLower
        rw [List.map_congr_left fun a ha => (hfix a ha).1, List.map_id']
      rw [hmap]
      exact List.filter_eq_self.mpr fun a ha => (hfix a ha).2

/-- Witness for C5 at the specification's own example. -/
theorem C5_witness :
    normalize_name (some (normalize_name (some (str "A-b 1!")))) =
      normalize_name (some (str "A-b 1!")) :=
  (C5_normalizer (some (str "A-b 1!"))).2.2.2.2

theorem is_high_spec_iff (row : Row) : is_high_spec row = true ↔ HighSpecP row := by
  simp [is_high_spec, HighSpecP, strContains_iff, or_assoc]

/-- C3: the classifier assigns High iff RAM is at least 16 or the folded GPU
text contains "rtx", "gtx" or "radeon rx"; Mid iff not High and RAM at least
8; Low otherwise; the bundle handed out is the one of the computed tier; and
an unparseable RAM string is treated as 0 with no error propagated. -/
theorem C3_classifier (row : Row) :
    (tier row = .High ↔ HighSpecP row) ∧
    (tier row = .Mid ↔ ¬HighSpecP row ∧ 8 ≤ ramOf row) ∧
    (tier row = .Low ↔ ¬HighSpecP row ∧ ¬8 ≤ ramOf row) ∧
    get_inferred_data row = bundleOf (tier row) ∧
    (∀ s, row.ram = some s → pythonInt s = none → ramOf row = 0) := by
  have hh := is_high_spec_iff row
  have hm : is_mid_spec row = true ↔ 8 ≤ ramOf row := by simp [is_mid_spec]
  by_cases h1 : is_high_spec row = true
  · have hp : HighSpecP row := hh.mp h1
    exact ⟨by simp [tier, h1, hp], by simp [tier, h1, hp], by simp [tier, h1, hp],
      by simp [get_inferred_data, bundleOf, tier, h1],
      fun s hs hnone => by simp [ramOf, hs, hnone]⟩
  · have hp : ¬HighSpecP row := fun h => h1 (hh.mpr h)
    by_cases h2 : is_mid_spec row = true
    · have h8 : 8 ≤ ramOf row := hm.mp h2
      exact ⟨by simp [tier, h1, h2, hp], by simp [tier, h1, h2, hp, h8],
        by simp [tier, h1, h2, h8],
        by simp [get_inferred_data, bundleOf, tier, h1, h2],
        fun s hs hnone => by simp [ramOf, hs, hnone]⟩
    · have h8 : ¬8 ≤ ramOf row := fun h => h2 (hm.mpr h)
      exact ⟨by simp [tier, h1, h2, hp], by simp [tier, h1, h2, h8],
        by simp [tier, h1, h2, hp, h8],
        by simp [get_inferred_data, bundleOf, tier, h1, h2],
        fun s hs hnone => by simp [ramOf, hs, hnone]⟩

/-- Witness for C3: the unparseable RAM string is treated as 0 and the record
is not High. -/
theorem C3_witness : ramOf ramInvalidRow = 0 ∧ ¬HighSpecP ramInvalidRow :=
  have h := C3_classifier ramInvalidRow
  ⟨h.2.2.2.2 (str "invalid") rfl (by decide), ((h.2.2.1).mp (by decide)).1⟩

/-- When the trigger holds, the imputed graphics value follows the
processor-keyword chain. -/
theorem impute_graphics_fill (row : Row) (hfill : needsFill row.graphics = true) :
    (impute_graphics row).graphics = some
      (if strContains (procOf row) (str "intel") then str "Intel Integrated Graphics"
       else if strContains (procOf row) (str "amd") || strContains (procOf row) (str "ryzen")
         then str "AMD Radeon Graphics"
       else str "Integrated Graphics") := by
  simp only [impute_graphics, procOf, hfill, if_true]
  split
  · rfl
  · split
    · rfl
    · rfl

/-- C4: for a record whose graphics field is absent or a case-sensitive
sentinel, the imputer writes the Intel / AMD / generic default according to
case-insensitive keyword search in the processor text, and an absent
processor field acts as the empty string. -/
theorem C4_imputer (row : Row)
    (h : row.graphics = none ∨ ∃ s ∈ hwSentinels, row.graphics = some s) :
    (ContainsStr (procOf row) (str "intel") →
      (impute_graphics row).graphics = some (str "Intel Integrated Graphics")) ∧
    (¬ContainsStr (procOf row) (str "intel") →
      (ContainsStr (procOf row) (str "amd") ∨ ContainsStr (procOf row) (str "ryzen")) →
      (impute_graphics row).graphics = some (str "AMD Radeon Graphics")) ∧
    (¬ContainsStr (procOf row) (str "intel") → ¬ContainsStr (procOf row) (str "amd") →
      ¬ContainsStr (procOf row) (str "ryzen") →
      (impute_graphics row).graphics = some (str "Integrated Graphics")) ∧
    (row.processor_name = none → procOf row = []) := by
  have hfill := (needsFill_iff row.graphics).mpr h
  have hg := impute_graphics_fill row hfill
  refine ⟨?_, ?_, ?_, fun hn => by simp [procOf, pyLower, hn]⟩
  · intro hintel
    rw [hg, if_pos ((strContains_iff _ _).mpr hintel)]
  · intro hni ham
    have h1 : ¬strContains (procOf row) (str "intel") = true :=
      fun hb => hni ((strContains_iff _ _).mp hb)
    have h2 : (strContains (procOf row) (str "amd") ||
        strContains (procOf row) (str "ryzen")) = true := by
      rcases ham with ha | hr
      · simp [(strContains_iff _ _).mpr ha]
      · simp [(strContains_iff _ _).mpr hr]
    rw [hg, if_neg h1, if_pos h2]
  · intro hni hna hnr
    have h1 : ¬strContains (procOf row) (str "intel") = true :=
      fun hb => hni ((strContains_iff _ _).mp hb)
    have h2 : ¬(strContains (procOf row) (str "amd") ||
        strContains (procOf row) (str "ryzen")) = true := by
      simp only [Bool.or_eq_true]
      rintro (hb | hb)
      · exact hna ((strContains_iff _ _).mp hb)
      · exact hnr ((strContains_iff _ _).mp hb)
    rw [hg, if_neg h1, if_neg h2]

/-- Witness for C4 at the specification's own imputer example. -/
theorem C4_witness :
    (impute_graphics intelRow).graphics = some (str "Intel Integrated Graphics") :=
  (C4_imputer intelRow (Or.inr ⟨str "Missing", by decide, rfl⟩)).1
    ⟨[], str " core i5", by decide⟩

/-- C2: the matcher returns exactly the first survey record, in loaded order,
whose normalized key is non-empty and is a substring of the catalog key or
contains it; every record before it fails that test, and later matching
records are ignored. -/
theorem C2_matcher (lm : Str) (survey : List SurveyRow) (m : SurveyRow) :
    find_match lm survey = some m ↔
      (m.model_normalized ≠ [] ∧
        (ContainsStr lm m.model_normalized ∨ ContainsStr m.model_normalized lm)) ∧
      ∃ pre post, survey = pre ++ m :: post ∧
        ∀ s ∈ pre, ¬(s.model_normalized ≠ [] ∧
          (ContainsStr lm s.model_normalized ∨ ContainsStr s.model_normalized lm)) := by
  rw [find_match, List.find?_eq_some]
  constructor
  · rintro ⟨hp, pre, post, rfl, hall⟩
    refine ⟨(matchPred_iff lm m).mp hp, pre, post, rfl, fun s hs => ?_⟩
    have hns := hall s hs
    intro hcontra
    have hsp := (matchPred_iff lm s).mpr hcontra
    simp [hsp] at hns
  · rintro ⟨hm, pre, post, rfl, hall⟩
    refine ⟨(matchPred_iff lm m).mpr hm, pre, post, rfl, fun s hs => ?_⟩
    by_cases hb : matchPred lm s = true
    · exact absurd ((matchPred_iff lm s).mp hb) (hall s hs)
    · simp [Bool.not_eq_true] at hb
      simp [hb]

/-- Witness for C2 at the specification's matcher example. -/
theorem C2_witness : find_match (str "macbookpro14") [mbp] = some mbp :=
  (C2_matcher (str "macbookpro14") [mbp] mbp).mpr
    ⟨⟨by decide, Or.inl ⟨[], str "14", by decide⟩⟩, [], [], rfl, by simp⟩

/-- C10: a catalog record with an empty normalized model name matches the
first survey record with a non-empty normalized key (the empty string is a
substring of every key), so a match always exists when any such record does
and the no-match classifier fallback branch is never taken. -/
theorem C10_empty_key (row : Row) (survey : List SurveyRow)
    (h0 : normalize_name row.model_name = [])
    (h1 : ∃ s ∈ survey, s.model_normalized ≠ []) :
    find_match (normalize_name row.model_name) survey =
      survey.find? (fun s => !s.model_normalized.isEmpty) ∧
    ∃ m, find_match (normalize_name row.model_name) survey = some m := by
  rw [h0]
  have hpred : matchPred [] = fun s : SurveyRow => !s.model_normalized.isEmpty := by
    funext s
    simp [matchPred, strContains_nil_right]
  constructor
  · rw [find_match, hpred]
  · rw [find_match, hpred]
    have hsome : (survey.find? fun s => !s.model_normalized.isEmpty).isSome := by
      rw [List.find?_isSome]
      rcases h1 with ⟨s, hs, hne⟩
      exact ⟨s, hs, by simpa [List.isEmpty_iff] using hne⟩
    exact Option.isSome_iff_exists.mp hsome

/-- Witness for C10: an absent model name normalizes to the empty key and
matches the first non-empty-key survey record. -/
theorem C10_witness :
    find_match (normalize_name emptyRow.model_name) [dellRow] =
      [dellRow].find? (fun s => !s.model_normalized.isEmpty) :=
  (C10_empty_key emptyRow [dellRow] rfl ⟨dellRow, by simp, by decide⟩).1

/-- With no survey match, all three descriptive fields come from the
classifier applied to the imputed record. -/
theorem process_row_no_match (survey : List SurveyRow) (row : Row)
    (hm : find_match (normalize_name row.model_name) survey = none) :
    process_row survey row =
      { impute row with
        Major := some (get_inferred_data (impute row)).Major,
        Activities := some (get_inferred_data (impute row)).Activities,
        ProgramList := some (get_inferred_data (impute row)).ProgramList } := by
  simp only [process_row, hm]

/-- With a match whose program list is falsy or a placeholder, only the
program list is overridden by the classifier. -/
theorem process_row_match_override (survey : List SurveyRow) (row : Row) (m : SurveyRow)
    (hm : find_match (normalize_name row.model_name) survey = some m)
    (hcond : (m.ProgramList.isEmpty || plSentinels.contains (pyLower m.ProgramList)) = true) :
    process_row survey row =
      { impute row with
        Major := some m.Major,
        Activities := some m.Activities,
        ProgramList := some (get_inferred_data (impute row)).ProgramList } := by
  have hgi : get_inferred_data { impute row with Major := some m.Major, Activities := some m.Activities, ProgramList := some m.ProgramList } = get_inferred_data (impute row) :=
    get_inferred_data_congr _ _ rfl rfl
  simp only [process_row, hm, hcond, if_true]
  rw [hgi]

/-- With a match whose program list is substantive, all three descriptive
fields are copied verbatim from the match. -/
theorem process_row_match_keep (survey : List SurveyRow) (row : Row) (m : SurveyRow)
    (hm : find_match (normalize_name row.model_name) survey = some m)
    (hcond : (m.ProgramList.isEmpty || plSentinels.contains (pyLower m.ProgramList)) = false) :
    process_row survey row =
      { impute row with
        Major := some m.Major,
        Activities := some m.Activities,
        ProgramList := some m.ProgramList } := by
  simp only [process_row, hm, hcond]
  rfl

/-- C1 as stated is false: a matched survey record's empty `Major` is copied
verbatim, so the processed record's `Major` is the empty string. -/
theorem C1_counterexample :
    ¬(nonEmptyField (process_row c1Survey c1Row).Major ∧
      nonEmptyField (process_row c1Survey c1Row).Activities ∧
      nonEmptyField (process_row c1Survey c1Row).ProgramList) := by
  rintro ⟨⟨s, hs, hne⟩, -, -⟩
  have hmaj : (process_row c1Survey c1Row).Major = some [] := by decide
  rw [hmaj] at hs
  injection hs with h
  exact hne h.symm

/-- C1 amended: the `ProgramList` of every processed record is present and
non-empty, and when no survey match is found all three derived fields are
present and non-empty (a matched record's `Major`/`Activities` are copied
verbatim from the survey and may be empty). -/
theorem C1_amended (survey : List SurveyRow) (row : Row) :
    nonEmptyField (process_row survey row).ProgramList ∧
    (find_match (normalize_name row.model_name) survey = none →
      nonEmptyField (process_row survey row).Major ∧
      nonEmptyField (process_row survey row).Activities) := by
  constructor
  · cases hm : find_match (normalize_name row.model_name) survey with
    | none =>
      rw [process_row_no_match survey row hm]
      exact ⟨_, rfl, (inferred_fields_nonempty (impute row)).2.2⟩
    | some m =>
      by_cases hcond :
          (m.ProgramList.isEmpty || plSentinels.contains (pyLower m.ProgramList)) = true
      · rw [process_row_match_override survey row m hm hcond]
        exact ⟨_, rfl, (inferred_fields_nonempty (impute row)).2.2⟩
      · rw [process_row_match_keep survey row m hm
          (Bool.not_eq_true _ ▸ Bool.of_not_eq_true hcond)]
        have hne : ¬m.ProgramList.isEmpty = true := by
          intro h
          exact hcond (by simp [h])
        exact ⟨m.ProgramList, rfl, by simpa [List.isEmpty_iff] using hne⟩
  · intro hm
    rw [process_row_no_match survey row hm]
    exact ⟨⟨_, rfl, (inferred_fields_nonempty (impute row)).1⟩,
      ⟨_, rfl, (inferred_fields_nonempty (impute row)).2.1⟩⟩

/-- Witness for the amended C1 on a record with no survey match. -/
theorem C1_amended_witness :
    nonEmptyField (process_row [] emptyRow).ProgramList ∧
    nonEmptyField (process_row [] emptyRow).Major ∧
    nonEmptyField (process_row [] emptyRow).Activities :=
  have h := C1_amended [] emptyRow
  ⟨h.1, (h.2 rfl).1, (h.2 rfl).2⟩

/-- C6: with a survey match whose program list is empty or a placeholder
("none"/"nan", case-insensitively), only `ProgramList` is replaced by the
classifier's inferred value; `Major` and `Activities` stay the copied survey
values, and no other column changes. -/
theorem C6_frame (survey : List SurveyRow) (row : Row) (m : SurveyRow)
    (hm : find_match (normalize_name row.model_name) survey = some m)
    (hpl : m.ProgramList = [] ∨ pyLower m.ProgramList = str "none" ∨
      pyLower m.ProgramList = str "nan") :
    (process_row survey row).Major = some m.Major ∧
    (process_row survey row).Activities = some m.Activities ∧
    (process_row survey row).ProgramList =
      some (get_inferred_data (impute row)).ProgramList ∧
    (process_row survey row).model_name = (impute row).model_name ∧
    (process_row survey row).ram = (impute row).ram ∧
    (process_row survey row).graphics = (impute row).graphics ∧
    (process_row survey row).processor_name = (impute row).processor_name ∧
    (process_row survey row).screen_size = (impute row).screen_size ∧
    (process_row survey row).resolution = (impute row).resolution := by
  have hcond :
      (m.ProgramList.isEmpty || plSentinels.contains (pyLower m.ProgramList)) = true := by
    rcases hpl with h | h | h
    · simp [h]
    · rw [h, show plSentinels.contains (str "none") = true from by decide, Bool.or_true]
    · rw [h, show plSentinels.contains (str "nan") = true from by decide, Bool.or_true]
  rw [process_row_match_override survey row m hm hcond]
  exact ⟨rfl, rfl, rfl, rfl, rfl, rfl, rfl, rfl, rfl⟩

/-- Witness for C6: concrete match with placeholder program list. -/
theorem C6_witness :
    (process_row c6Survey c6Row).Major = some (str "CS") ∧
    (process_row c6Survey c6Row).ProgramList =
      some (get_inferred_data (impute c6Row)).ProgramList :=
  have h := C6_frame c6Survey c6Row ⟨str "thinkpad", str "CS", str "Stuff", str "none"⟩
    (by decide) (Or.inr (Or.inl (by decide)))
  ⟨h.1, h.2.2.1⟩

/-- C8: if any survey row lacks a column for one of the expected header
keywords, the run crashes with the uncaught out-of-range lookup and no
output file content is produced. -/
theorem C8_malformed_header (lrows srows : List RawRow)
    (h : ∃ row ∈ srows,
      findCol (str "laptop model") row = none ∨ findCol (str "major") row = none ∨
      findCol (str "activities") row = none ∨ findColPL row = none) :
    merge_main (some lrows) (some srows) =
      .crashed (str "IndexError: list index out of range") ∧
    writtenOutput (merge_main (some lrows) (some srows)) = none := by
  have hps : parse_survey srows = none := by
    rw [parse_survey_eq_none]
    rcases h with ⟨row, hmem, hfail⟩
    refine ⟨row, hmem, ?_⟩
    rcases hfail with h1 | h1 | h1 | h1
    · simp [parse_survey_row, h1]
    · cases hm : findCol (str "laptop model") row <;>
        simp [parse_survey_row, hm, h1]
    · cases hm : findCol (str "laptop model") row <;>
        cases hj : findCol (str "major") row <;>
          simp [parse_survey_row, hm, hj, h1]
    · cases hm : findCol (str "laptop model") row <;>
        cases hj : findCol (str "major") row <;>
          cases ha : findCol (str "activities") row <;>
            simp [parse_survey_row, hm, hj, ha, h1]
  constructor
  · simp [merge_main, hps]
  · simp [merge_main, hps, writtenOutput]

/-- Witness for C8 on a survey row with no model column. -/
theorem C8_witness :
    merge_main (some []) (some [badSurveyRow]) =
      .crashed (str "IndexError: list index out of range") :=
  (C8_malformed_header [] [badSurveyRow]
    ⟨badSurveyRow, List.mem_singleton.mpr rfl, Or.inl (by decide)⟩).1

/-- C9: a missing input file makes either tool print a message and stop
gracefully — the merge tool writes no output, and every analyzer load
fault (file-not-found or any other error) is caught, never re-raised. -/
theorem C9_error_handling :
    (∀ surveyFile, merge_main none surveyFile = .missingFile laptop_path ∧
      writtenOutput (merge_main none surveyFile) = none) ∧
    (∀ lrows, merge_main (some lrows) none = .missingFile survey_path ∧
      writtenOutput (merge_main (some lrows) none) = none) ∧
    check_missing_main .fileNotFound = .printedError (str "File not found") ∧
    (∀ (load : LoadResult (List ARow)) (msg : Str),
      check_missing_main load ≠ .raised msg) := by
  refine ⟨fun sf => ⟨rfl, rfl⟩, fun lrows => ⟨rfl, rfl⟩, rfl, fun load msg => ?_⟩
  cases load <;> simp [check_missing_main]

/-- Witness for C9 at concrete inputs. -/
theorem C9_witness :
    merge_main none (some []) = .missingFile laptop_path ∧
    check_missing_main (.otherError (str "boom")) ≠ .raised (str "boom") :=
  ⟨(C9_error_handling.1 (some [])).1,
   C9_error_handling.2.2.2 (.otherError (str "boom")) (str "boom")⟩

theorem row_filter_of_not_mem (row : ARow) (k : Str) (hnm : k ∉ aKeys row) :
    row.filter (fun kv => kv.1 == k && isMissingCell kv.2) = [] := by
  induction row with
  | nil => rfl
  | cons kv rest ih =>
    have hmemc : k ∉ kv.1 :: aKeys rest := hnm
    have hne : ¬kv.1 = k := fun he => hmemc (by rw [he]; exact List.mem_cons_self _ _)
    have hrest : k ∉ aKeys rest := fun hm => hmemc (List.mem_cons_of_mem _ hm)
    have hbeq : (kv.1 == k) = false := beq_eq_false_iff_ne.mpr hne
    rw [List.filter_cons]
    rw [show (kv.1 == k && isMissingCell kv.2) = false by rw [hbeq]; rfl]
    rw [if_neg (by decide)]
    exact ih hrest

theorem row_filter_of_nodup (row : ARow) (k : Str) (hnd : (aKeys row).Nodup)
    (hmem : k ∈ aKeys row) :
    (row.filter fun kv => kv.1 == k && isMissingCell kv.2).length =
      if isMissingCell (lookupCellA row k) then 1 else 0 := by
  induction row with
  | nil => cases hmem
  | cons kv rest ih =>
    have hnd2 : (kv.1 :: aKeys rest).Nodup := hnd
    rcases List.nodup_cons.mp hnd2 with ⟨hhead, hrest⟩
    by_cases heq : k = kv.1
    · subst heq
      have hfind : List.find? (fun kv2 => kv2.1 == kv.1) (kv :: rest) = some kv :=
        List.find?_cons_of_pos _ (by simp)
      have hlook : lookupCellA (kv :: rest) kv.1 = kv.2 := by
        simp [lookupCellA, hfind]
      rw [hlook, List.filter_cons]
      rw [show (kv.1 == kv.1 && isMissingCell kv.2) = isMissingCell kv.2 by simp]
      rw [row_filter_of_not_mem rest kv.1 hhead]
      by_cases hmiss : isMissingCell kv.2 = true
      · rw [if_pos hmiss, if_pos hmiss]
        rfl
      · rw [if_neg hmiss, if_neg hmiss]
        rfl
    · have hbeq : (kv.1 == k) = false := beq_eq_false_iff_ne.mpr fun he => heq he.symm
      have hmem2 : k ∈ aKeys rest := by
        rcases List.mem_cons.mp (show k ∈ kv.1 :: aKeys rest from hmem) with he | hm
        · exact absurd he heq
        · exact hm
      have hlook : lookupCellA (kv :: rest) k = lookupCellA rest k := by
        simp [lookupCellA, List.find?_cons, hbeq]
      rw [hlook, List.filter_cons]
      rw [show (kv.1 == k && isMissingCell kv.2) = false by rw [hbeq]; rfl]
      rw [if_neg (by decide)]
      exact ih hrest hmem2

theorem countMissingIn_eq_countP (data : List ARow) (k : Str) (headers : List Str)
    (hkeys : ∀ row ∈ data, aKeys row = headers) (hnd : headers.Nodup)
    (hmem : k ∈ headers) :
    countMissingIn data k =
      data.countP fun row => isMissingCell (lookupCellA row k) := by
  induction data with
  | nil => rfl
  | cons r rest ih =>
    have hr := hkeys r (List.mem_cons_self r rest)
    have hnd2 : (aKeys r).Nodup := by rw [hr]; exact hnd
    have hmem2 : k ∈ aKeys r := by rw [hr]; exact hmem
    have hflt := row_filter_of_nodup r k hnd2 hmem2
    have ih2 := ih fun row hm => hkeys row (List.mem_cons_of_mem r hm)
    simp only [countMissingIn, List.map_cons, List.sum_cons, List.countP_cons]
    rw [hflt]
    simp only [countMissingIn] at ih2
    rw [ih2]
    by_cases hmiss : isMissingCell (lookupCellA r k) = true
    · simp [hmiss, Nat.add_comm]
    · simp [hmiss]

/-- C7: on an empty record set the analyzer reports no data; the per-cell
test is exactly "absent, or trimmed case-folded text among the missing
keywords"; and on a non-empty set it reports, per column of the first
record, the count of rows whose cell at that column is missing, with the
exact percentage `count / total * 100` when the count is positive and the
literal zero entry otherwise. -/
theorem C7_analyzer :
    analyze_missing [] = .noData ∧
    (∀ c, isMissingCell c = true ↔ CellMissingSpec c) ∧
    ∀ (first : ARow) (rest : List ARow),
      (∀ row ∈ first :: rest, aKeys row = aKeys first) →
      (aKeys first).Nodup →
      analyze_missing (first :: rest) =
        .table (first :: rest).length
          ((aKeys first).map fun k =>
            ((k : Str), (first :: rest).countP fun row => isMissingCell (lookupCellA row k),
              if 0 < ((first :: rest).countP fun row => isMissingCell (lookupCellA row k))
              then some
                (((((first :: rest).countP fun row => isMissingCell (lookupCellA row k)) : ℚ)) /
                  (((first :: rest).length : Nat) : ℚ) * 100)
              else none)) := by
  refine ⟨rfl, isMissingCell_iff, fun first rest hkeys hnd => ?_⟩
  simp only [analyze_missing]
  congr 1
  apply List.map_congr_left
  intro k hk
  have hc := countMissingIn_eq_countP (first :: rest) k (aKeys first) hkeys hnd hk
  simp only [hc]

/-- Witness for C7: one missing cell out of two rows reports count 1 and
exactly 50 percent. -/
theorem C7_witness :
    analyze_missing [c7Row1, c7Row2] = .table 2 [(str "graphics", 1, some 50)] := by
  have h := C7_analyzer.2.2 c7Row1 [c7Row2] (by decide) (by decide)
  rw [h]
  have hcount :
      ([c7Row1, c7Row2].countP fun row => isMissingCell (lookupCellA row (str "graphics"))) = 1 := by
    decide
  have hkeys : aKeys c7Row1 = [str "graphics"] := rfl
  rw [hkeys, List.map_cons, List.map_nil]
  simp only [hcount]
  norm_num
